import Mathlib

/-!
Verification of the relational resolution layer of an in-memory
authors/books store (a GraphQL-style resolver module).

The store holds two collections, `authors` and `books`, cross-referenced
by string identifiers.  The resolution layer exposes five operations:
`Book.author`, `Author.books`, `Query.authors`, `Query.books` and
`Mutation.addBook`.  The JavaScript source mutates a module-global
`data` object; here the store is threaded explicitly: read resolvers
are functions of the store, and `Mutation.addBook` returns the updated
store together with the created book.
-/

/-- An author row: `{ id, name, bookIds }`. -/
structure Author where
  id : String
  name : String
  bookIds : List String
deriving Repr, DecidableEq, Inhabited

/-- A book row: `{ id, title, publishedYear, authorId }`.
`publishedYear` is a nullable integer in the schema, hence `Option Int`. -/
structure Book where
  id : String
  title : String
  publishedYear : Option Int
  authorId : String
deriving Repr, DecidableEq, Inhabited

/-- The in-memory store: the two collections of the module-global `data`. -/
structure Store where
  authors : List Author
  books : List Book
deriving Repr, DecidableEq, Inhabited

/-- Seed author `"1"`. -/
def author1 : Author := { id := "1", name := "Chirag Goel", bookIds := ["101", "102"] }

/-- Seed author `"2"`. -/
def author2 : Author := { id := "2", name := "Akshay Saini", bookIds := ["103"] }

/-- Seed book `"101"`. -/
def book101 : Book :=
  { id := "101", title := "Namaste Frontend System Design"
    publishedYear := some 2000, authorId := "1" }

/-- Seed book `"102"`. -/
def book102 : Book :=
  { id := "102", title := "Book 2", publishedYear := some 2010, authorId := "1" }

/-- Seed book `"103"`. -/
def book103 : Book :=
  { id := "103", title := "Book 3", publishedYear := some 2020, authorId := "2" }

/-- The seeded store (the literal `data` object of the source). -/
def data : Store :=
  { authors := [author1, author2], books := [book101, book102, book103] }

/-- Arguments of the `addBook` mutation:
`title: String!`, `publishedYear: Int`, `authorId: ID!`. -/
structure AddBookArgs where
  title : String
  publishedYear : Option Int
  authorId : String
deriving Repr, DecidableEq

namespace Resolvers

/-- `Book.author` resolver: `data.authors.find(a => a.id === parent.authorId)`. -/
def Book.author (s : Store) (parent : Book) : Option Author :=
  s.authors.find? (fun authorDetail => authorDetail.id == parent.authorId)

/-- `Author.books` resolver:
`data.books.filter(book => parent.bookIds.includes(book.id))`. -/
def Author.books (s : Store) (parent : Author) : List Book :=
  s.books.filter (fun book => parent.bookIds.contains book.id)

/-- `Query.authors` resolver: returns `data.authors`. -/
def Query.authors (s : Store) : List Author :=
  s.authors

/-- `Query.books` resolver: returns `data.books`. -/
def Query.books (s : Store) : List Book :=
  s.books

/-- Models the in-place `author.bookIds.push(newBook.id)` on the author
object returned by `data.authors.find(a => a.id === args.authorId)`:
the first author in the list whose id matches `aid` gets `bid` appended
to its `bookIds`; if none matches, the list is unchanged. -/
def pushBookIdToFirstMatch : List Author → String → String → List Author
  | [], _, _ => []
  | a :: rest, aid, bid =>
    if a.id == aid then { a with bookIds := a.bookIds ++ [bid] } :: rest
    else a :: pushBookIdToFirstMatch rest aid bid

/-- `Mutation.addBook` resolver: builds the new book with
`id = (data.books.length + 101).toString()`, pushes it onto `data.books`,
then pushes its id onto the matching author's `bookIds` (if any), and
returns the new book. -/
def Mutation.addBook (s : Store) (args : AddBookArgs) : Store × Book :=
  let newBook : Book :=
    { id := toString (s.books.length + 101)
      title := args.title
      publishedYear := args.publishedYear
      authorId := args.authorId }
  let s1 : Store := { s with books := s.books ++ [newBook] }
  let s2 : Store := { s1 with authors := pushBookIdToFirstMatch s1.authors args.authorId newBook.id }
  (s2, newBook)

end Resolvers

/-- The five operations the resolution layer exposes, as one step type. -/
inductive Op where
  | queryAuthors : Op
  | queryBooks : Op
  | bookAuthor (parent : Book) : Op
  | authorBooks (parent : Author) : Op
  | addBook (args : AddBookArgs) : Op

/-- The value an operation returns to the query engine. -/
inductive Response where
  | authorList (as : List Author) : Response
  | bookList (bs : List Book) : Response
  | optAuthor (a : Option Author) : Response
  | newBook (b : Book) : Response
deriving DecidableEq

/-- One step of the resolution layer: each operation reads or mutates the
store and returns a response.  Read resolvers leave the store unchanged
(they only return data); only `addBook` produces a new store. -/
def applyOp (s : Store) : Op → Store × Response
  | .queryAuthors => (s, .authorList (Resolvers.Query.authors s))
  | .queryBooks => (s, .bookList (Resolvers.Query.books s))
  | .bookAuthor parent => (s, .optAuthor (Resolvers.Book.author s parent))
  | .authorBooks parent => (s, .bookList (Resolvers.Author.books s parent))
  | .addBook args =>
    let r := Resolvers.Mutation.addBook s args
    (r.1, .newBook r.2)

/-- Runs a sequence of `addBook` mutations, collecting the created books
in call order. -/
def runAddBooks (s : Store) : List AddBookArgs → Store × List Book
  | [] => (s, [])
  | args :: rest =>
    let r := Resolvers.Mutation.addBook s args
    let rr := runAddBooks r.1 rest
    (rr.1, r.2 :: rr.2)

/-- The concrete mutation call of the C3 scenario:
`addBook(title: "New Book", publishedYear: 2025, authorId: "1")` on the
seeded store. -/
def c3Call : Store × Book :=
  Resolvers.Mutation.addBook data { title := "New Book", publishedYear := some 2025, authorId := "1" }

/-- The concrete mutation call of the unlinked-author scenario:
`addBook(title: "X", publishedYear: 1999, authorId: "does-not-exist")` on
the seeded store. -/
def c5Call : Store × Book :=
  Resolvers.Mutation.addBook data
    { title := "X", publishedYear := some 1999, authorId := "does-not-exist" }

/-- Reads a most-significant-first list of decimal digit characters back
into the number it denotes (left inverse of `Nat.toDigits 10` on its
range, used to show the generated string ids are pairwise distinct). -/
def decodeDigits (cs : List Char) : Nat :=
  cs.foldl (fun acc c => 10 * acc + (c.toNat - 48)) 0

/-- Invariant of the reachable stores: the i-th book (0-based) has id
`Nat.repr (101 + i)`.  It holds for the seed (`"101", "102", "103"`) and
is preserved by `addBook`, whose generated id is
`(books.length + 101).toString()`. -/
def booksIndexed (s : Store) : Prop :=
  s.books.map (fun b => b.id) = (List.range s.books.length).map (fun i => Nat.repr (101 + i))

example : Resolvers.Book.author data book101 = some author1 := by decide
example : Resolvers.Author.books data author1 = [book101, book102] := by decide
example :
    (Resolvers.Mutation.addBook data ⟨"New Book", some 2025, "1"⟩).2.id = "104" := by decide

/-- C1: `Book.author` applied to a book `b` returns an author of the store
whose id equals `b.authorId`; it returns some author whenever one with
that id exists, and it returns `none` (absent, not an error) exactly when
no author of the store has that id. -/
theorem C1_book_author_resolution (s : Store) (b : Book) :
    (∀ a, Resolvers.Book.author s b = some a → a ∈ s.authors ∧ a.id = b.authorId) ∧
    ((∃ a ∈ s.authors, a.id = b.authorId) → (Resolvers.Book.author s b).isSome) ∧
    (Resolvers.Book.author s b = none ↔ ∀ a ∈ s.authors, a.id ≠ b.authorId) := by
  unfold Resolvers.Book.author
  refine ⟨fun a h => ⟨List.mem_of_find?_eq_some h, by simpa using List.find?_some h⟩, ?_, ?_⟩
  · rintro ⟨a, ha, hid⟩
    rw [List.find?_isSome]
    exact ⟨a, ha, by simpa using hid⟩
  · rw [List.find?_eq_none]
    simp

/-- C1 witness: on the seeded store, `Book.author` of book `"101"`
returns `author1`, a member of the store with the matching id. -/
theorem C1_witness :
    author1 ∈ data.authors ∧ author1.id = book101.authorId :=
  (C1_book_author_resolution data book101).1 author1 (by decide)

/-- C2: `Author.books` applied to an author `a` returns exactly the books
of the store whose id appears in `a.bookIds` (no extras), as a sublist of
the store's books (store order preserved, no duplicates introduced:
each book occurs at most as often as in the store), and it returns `[]`
when `a.bookIds` is empty or none of its ids match any book. -/
theorem C2_author_books_resolution (s : Store) (a : Author) :
    (∀ b, b ∈ Resolvers.Author.books s a ↔ b ∈ s.books ∧ b.id ∈ a.bookIds) ∧
    (Resolvers.Author.books s a).Sublist s.books ∧
    (∀ b, List.count b (Resolvers.Author.books s a) ≤ List.count b s.books) ∧
    (a.bookIds = [] → Resolvers.Author.books s a = []) ∧
    ((∀ i ∈ a.bookIds, ∀ b ∈ s.books, b.id ≠ i) → Resolvers.Author.books s a = []) := by
  unfold Resolvers.Author.books
  refine ⟨fun b => ?_, List.filter_sublist _, fun b => (List.filter_sublist _).count_le b,
    fun h => by simp [h], fun h => ?_⟩
  · simp [List.mem_filter]
  · rw [List.filter_eq_nil_iff]
    intro b hb
    simp only [List.contains, List.elem_eq_mem, decide_eq_true_eq]
    intro hc
    exact h _ hc b hb rfl

/-- C2 witness: on the seeded store, book `"101"` is returned for
`author1` because it is a store book listed in `author1.bookIds`; and an
author with empty `bookIds` resolves to the empty sequence. -/
theorem C2_witness :
    (book101 ∈ data.books ∧ book101.id ∈ author1.bookIds) ∧
    Resolvers.Author.books data { id := "9", name := "N", bookIds := [] } = [] :=
  ⟨((C2_author_books_resolution data author1).1 book101).mp (by decide),
    (C2_author_books_resolution data { id := "9", name := "N", bookIds := [] }).2.2.2.1 rfl⟩

/-- C3: after `addBook(title: "New Book", publishedYear: 2025, authorId: "1")`
on the seeded store, (a) the book listing is longer by exactly one,
(b) the new book's `authorId` is `"1"`, (c) `Author.books` of the stored
author with id `"1"` now includes the new book, and (d) the returned book
has title `"New Book"` and published year `2025`. -/
theorem C3_addBook_effect :
    (Resolvers.Query.books c3Call.1).length = (Resolvers.Query.books data).length + 1 ∧
    c3Call.2.authorId = "1" ∧
    c3Call.1.authors.find? (fun a => a.id == "1") =
      some { id := "1", name := "Chirag Goel", bookIds := ["101", "102", "104"] } ∧
    c3Call.2 ∈ Resolvers.Author.books c3Call.1
      { id := "1", name := "Chirag Goel", bookIds := ["101", "102", "104"] } ∧
    c3Call.2.title = "New Book" ∧ c3Call.2.publishedYear = some 2025 := by
  decide

/-- Pushing `bid` onto the first author matching `aid` commutes with
`find?`: the lookup afterwards returns the same author with `bid`
appended to its `bookIds`. -/
theorem find?_pushBookIdToFirstMatch (l : List Author) (aid bid : String) (a : Author)
    (h : l.find? (fun x => x.id == aid) = some a) :
    (Resolvers.pushBookIdToFirstMatch l aid bid).find? (fun x => x.id == aid) =
      some { a with bookIds := a.bookIds ++ [bid] } := by
  induction l with
  | nil => simp at h
  | cons x rest ih =>
    rw [List.find?_cons] at h
    unfold Resolvers.pushBookIdToFirstMatch
    by_cases hx : (x.id == aid) = true
    · simp only [hx, if_true] at h ⊢
      cases h
      rw [List.find?_cons]
      simp [hx]
    · simp only [hx, if_false, Bool.false_eq_true] at h ⊢
      rw [List.find?_cons]
      simp only [hx, Bool.false_eq_true, if_false]
      exact ih h

/-- C4: for every store state and argument triple, the created book's id
is `(books.length + 101).toString()`, the new book is appended at the end
of the book collection, and when an author matching `authorId` is found,
the lookup after the call returns that author with the new id appended to
its `bookIds`. -/
theorem C4_addBook_general (s : Store) (args : AddBookArgs) :
    (Resolvers.Mutation.addBook s args).2.id = toString (s.books.length + 101) ∧
    (Resolvers.Mutation.addBook s args).1.books =
      s.books ++ [(Resolvers.Mutation.addBook s args).2] ∧
    (∀ a, s.authors.find? (fun x => x.id == args.authorId) = some a →
      (Resolvers.Mutation.addBook s args).1.authors.find? (fun x => x.id == args.authorId) =
        some { a with bookIds :=
          a.bookIds ++ [(Resolvers.Mutation.addBook s args).2.id] }) :=
  ⟨rfl, rfl, fun a h => find?_pushBookIdToFirstMatch s.authors args.authorId _ a h⟩

/-- C4 witness: on the seeded store, adding a book for author `"1"`
appends the generated id to `author1.bookIds`. -/
theorem C4_witness :
    (Resolvers.Mutation.addBook data ⟨"B", none, "1"⟩).1.authors.find?
        (fun x => x.id == "1") =
      some { author1 with bookIds :=
        author1.bookIds ++ [(Resolvers.Mutation.addBook data ⟨"B", none, "1"⟩).2.id] } :=
  (C4_addBook_general data ⟨"B", none, "1"⟩).2.2 author1 (by decide)

/-- C5: `addBook(title: "X", publishedYear: 1999, authorId: "does-not-exist")`
still succeeds: the returned book carries the given `authorId` and is in
the store, the authors collection is unchanged (no `bookIds` gains the new
id), and `Book.author` on the result resolves to absent. -/
theorem C5_unlinked_author :
    c5Call.2.authorId = "does-not-exist" ∧
    c5Call.2.title = "X" ∧
    c5Call.2 ∈ c5Call.1.books ∧
    c5Call.1.authors = data.authors ∧
    Resolvers.Book.author c5Call.1 c5Call.2 = none := by
  decide

/-- Pushing a book id onto the first matching author changes no author's
id or name: the projection to `(id, name)` pairs is preserved. -/
theorem pushBookIdToFirstMatch_map_id_name (l : List Author) (aid bid : String) :
    (Resolvers.pushBookIdToFirstMatch l aid bid).map (fun a => (a.id, a.name)) =
      l.map (fun a => (a.id, a.name)) := by
  induction l with
  | nil => rfl
  | cons x rest ih =>
    unfold Resolvers.pushBookIdToFirstMatch
    by_cases hx : (x.id == aid) = true
    · simp [hx]
    · simp [hx, ih]

/-- C6 counterexample: `addBook` with an existing `authorId` does modify
the authors collection — on the seeded store, adding a book for author
`"1"` changes `author1.bookIds`, so the claim that every operation leaves
the authors collection identical is false. -/
theorem C6_counterexample :
    ¬ ((applyOp data (Op.addBook ⟨"New Book", some 2025, "1"⟩)).1.authors = data.authors) := by
  decide

/-- Exact characterization of `pushBookIdToFirstMatch`: either no author
of the list matches `aid` and the list is returned unchanged, or the
first matching author — at index `i`, every earlier author non-matching —
has exactly `bid` appended to its `bookIds` while the authors before and
after it are untouched. -/
theorem pushBookIdToFirstMatch_spec (aid bid : String) :
    ∀ l : List Author,
      (Resolvers.pushBookIdToFirstMatch l aid bid = l ∧ ∀ x ∈ l, x.id ≠ aid) ∨
      (∃ i, ∃ h : i < l.length,
        (l.get ⟨i, h⟩).id = aid ∧
        (∀ j, ∀ hj : j < l.length, j < i → (l.get ⟨j, hj⟩).id ≠ aid) ∧
        Resolvers.pushBookIdToFirstMatch l aid bid =
          l.take i ++
            [{ l.get ⟨i, h⟩ with bookIds := (l.get ⟨i, h⟩).bookIds ++ [bid] }] ++
            l.drop (i + 1)) := by
  intro l
  induction l with
  | nil => exact Or.inl ⟨rfl, by simp⟩
  | cons x rest ih =>
    by_cases hx : (x.id == aid) = true
    · refine Or.inr ⟨0, Nat.succ_pos _, ?_, ?_, ?_⟩
      · simpa using hx
      · intro j hj hj0
        omega
      · unfold Resolvers.pushBookIdToFirstMatch
        rw [if_pos hx]
        simp
    · rcases ih with ⟨heq, hall⟩ | ⟨i, h, hid, hbefore, heq⟩
      · refine Or.inl ⟨?_, ?_⟩
        · unfold Resolvers.pushBookIdToFirstMatch
          rw [if_neg hx, heq]
        · intro y hy
          rcases List.mem_cons.mp hy with rfl | hy
          · simpa using hx
          · exact hall y hy
      · refine Or.inr ⟨i + 1, Nat.succ_lt_succ h, ?_, ?_, ?_⟩
        · simpa using hid
        · intro j hj hji
          cases j with
          | zero => simpa using hx
          | succ j =>
            have hj2 : j < rest.length := Nat.lt_of_succ_lt_succ hj
            have hji2 : j < i := Nat.lt_of_succ_lt_succ hji
            simpa using hbefore j hj2 hji2
        · unfold Resolvers.pushBookIdToFirstMatch
          rw [if_neg hx, heq]
          simp

/-- C6 amended: no operation creates or deletes an Author, and none
changes any Author's id or name — the four read operations leave the
store untouched, and `addBook` preserves the number of authors and each
author's id and name; when no author matches the given `authorId` the
authors collection is fully unchanged, and in general the collection is
either unchanged or differs only at the first author matching
`authorId`, whose `bookIds` gains exactly the new book's id at the end,
all other authors being untouched. -/
theorem C6_amended_frame (s : Store) (args : AddBookArgs) (b : Book) (a : Author) :
    (applyOp s Op.queryAuthors).1 = s ∧
    (applyOp s Op.queryBooks).1 = s ∧
    (applyOp s (Op.bookAuthor b)).1 = s ∧
    (applyOp s (Op.authorBooks a)).1 = s ∧
    (applyOp s (Op.addBook args)).1.authors.length = s.authors.length ∧
    (applyOp s (Op.addBook args)).1.authors.map (fun x => (x.id, x.name)) =
      s.authors.map (fun x => (x.id, x.name)) ∧
    ((∀ x ∈ s.authors, x.id ≠ args.authorId) →
      (applyOp s (Op.addBook args)).1.authors = s.authors) ∧
    ((applyOp s (Op.addBook args)).1.authors = s.authors ∨
      ∃ i, ∃ h : i < s.authors.length,
        (s.authors.get ⟨i, h⟩).id = args.authorId ∧
        (∀ j, ∀ hj : j < s.authors.length, j < i →
          (s.authors.get ⟨j, hj⟩).id ≠ args.authorId) ∧
        (applyOp s (Op.addBook args)).1.authors =
          s.authors.take i ++
            [{ s.authors.get ⟨i, h⟩ with bookIds :=
                (s.authors.get ⟨i, h⟩).bookIds ++
                  [(Resolvers.Mutation.addBook s args).2.id] }] ++
            s.authors.drop (i + 1)) := by
  refine ⟨rfl, rfl, rfl, rfl, ?_,
    pushBookIdToFirstMatch_map_id_name s.authors args.authorId _, ?_, ?_⟩
  · have h := congrArg List.length
      (pushBookIdToFirstMatch_map_id_name s.authors args.authorId
        (toString (s.books.length + 101)))
    simpa using h
  · intro hnone
    rcases pushBookIdToFirstMatch_spec args.authorId
        (Resolvers.Mutation.addBook s args).2.id s.authors with
      ⟨heq, _⟩ | ⟨i, h, hid, _, _⟩
    · exact heq
    · exact absurd hid (hnone _ (List.get_mem s.authors i h))
  · rcases pushBookIdToFirstMatch_spec args.authorId
        (Resolvers.Mutation.addBook s args).2.id s.authors with
      ⟨heq, _⟩ | hspec
    · exact Or.inl heq
    · exact Or.inr hspec

/-- C6 amended witness: on the seeded store, `addBook` with the unmatched
author id `"zzz"` leaves the authors collection fully unchanged. -/
theorem C6_amended_witness :
    (applyOp data (Op.addBook ⟨"T", none, "zzz"⟩)).1.authors = data.authors :=
  (C6_amended_frame data ⟨"T", none, "zzz"⟩ book101 author1).2.2.2.2.2.2.1 (by decide)

/-- C7: for every starting store and every sequence of `addBook` calls,
`Query.books` of the final store is the starting books followed by the
created books in creation order, and `Query.authors` still lists the same
authors (same length, same ids and names, in order). -/
theorem C7_query_listing (s : Store) (argsList : List AddBookArgs) :
    Resolvers.Query.books (runAddBooks s argsList).1 =
      s.books ++ (runAddBooks s argsList).2 ∧
    (Resolvers.Query.authors (runAddBooks s argsList).1).map (fun a => (a.id, a.name)) =
      s.authors.map (fun a => (a.id, a.name)) := by
  induction argsList generalizing s with
  | nil => simp [runAddBooks, Resolvers.Query.books, Resolvers.Query.authors]
  | cons args rest ih =>
    unfold runAddBooks
    have h1 := (ih (Resolvers.Mutation.addBook s args).1).1
    have h2 := (ih (Resolvers.Mutation.addBook s args).1).2
    constructor
    · simp only [Resolvers.Query.books] at h1 ⊢
      rw [h1]
      show (s.books ++ [(Resolvers.Mutation.addBook s args).2]) ++ _ = _
      rw [List.append_assoc]
      rfl
    · simp only [Resolvers.Query.authors] at h2 ⊢
      rw [h2]
      exact pushBookIdToFirstMatch_map_id_name s.authors args.authorId _

/-- C8: the two root read operations leave the store unchanged, and
running either twice in a row yields the same response both times. -/
theorem C8_read_idempotence (s : Store) :
    (applyOp s Op.queryAuthors).1 = s ∧
    (applyOp s Op.queryBooks).1 = s ∧
    (applyOp (applyOp s Op.queryAuthors).1 Op.queryAuthors).2 =
      (applyOp s Op.queryAuthors).2 ∧
    (applyOp (applyOp s Op.queryBooks).1 Op.queryBooks).2 =
      (applyOp s Op.queryBooks).2 :=
  ⟨rfl, rfl, rfl, rfl⟩

/-- C9: every resolution function is total and degrades misses silently:
a `Book.author` lookup miss resolves to `none`, `Author.books` only ever
returns books of the store and resolves to `[]` on an empty `bookIds`,
and `addBook` always succeeds, returning a stored book carrying exactly
the given arguments — no operation has an error outcome. -/
theorem C9_total_silent_degradation (s : Store) (b : Book) (a : Author) (args : AddBookArgs) :
    ((∀ x ∈ s.authors, x.id ≠ b.authorId) → Resolvers.Book.author s b = none) ∧
    (∀ x ∈ Resolvers.Author.books s a, x ∈ s.books) ∧
    (a.bookIds = [] → Resolvers.Author.books s a = []) ∧
    (Resolvers.Mutation.addBook s args).2.title = args.title ∧
    (Resolvers.Mutation.addBook s args).2.publishedYear = args.publishedYear ∧
    (Resolvers.Mutation.addBook s args).2.authorId = args.authorId ∧
    (Resolvers.Mutation.addBook s args).2 ∈ (Resolvers.Mutation.addBook s args).1.books := by
  refine ⟨fun h => ?_, fun x hx => ?_, fun h => ?_, rfl, rfl, rfl, ?_⟩
  · unfold Resolvers.Book.author
    rw [List.find?_eq_none]
    simpa using h
  · exact List.mem_of_mem_filter hx
  · unfold Resolvers.Author.books
    simp [h]
  · show _ ∈ s.books ++ [_]
    exact List.mem_append_right _ (List.mem_singleton.mpr rfl)

/-- C9 witness: on the seeded store, a book with an unknown `authorId`
resolves to an absent author, and an author with no `bookIds` resolves to
the empty book sequence. -/
theorem C9_witness :
    Resolvers.Book.author data
        { id := "999", title := "T", publishedYear := none, authorId := "zz" } = none ∧
    Resolvers.Author.books data { id := "9", name := "N", bookIds := [] } = [] :=
  ⟨(C9_total_silent_degradation data ⟨"999", "T", none, "zz"⟩ author1 ⟨"t", none, "1"⟩).1
      (by decide),
    (C9_total_silent_degradation data book101 ⟨"9", "N", []⟩ ⟨"t", none, "1"⟩).2.2.1 rfl⟩

/-- Decimal digit characters decode back to their value. -/
theorem digitChar_toNat_sub : ∀ d, d < 10 → (Nat.digitChar d).toNat - 48 = d := by
  decide

/-- `Nat.toDigitsCore` only prepends to its accumulator list. -/
theorem toDigitsCore_append (base : Nat) :
    ∀ (fuel n : Nat) (ds : List Char),
      Nat.toDigitsCore base fuel n ds = Nat.toDigitsCore base fuel n [] ++ ds := by
  intro fuel
  induction fuel with
  | zero => intro n ds; simp [Nat.toDigitsCore]
  | succ fuel ih =>
    intro n ds
    unfold Nat.toDigitsCore
    by_cases h : n / base = 0
    · simp [h]
    · simp only [h, if_false]
      rw [ih (n / base) (Nat.digitChar (n % base) :: ds),
        ih (n / base) [Nat.digitChar (n % base)]]
      simp

/-- Decoding is a left inverse of `Nat.toDigitsCore 10` given enough fuel. -/
theorem decodeDigits_toDigitsCore :
    ∀ (fuel n : Nat), n < fuel → decodeDigits (Nat.toDigitsCore 10 fuel n []) = n := by
  intro fuel
  induction fuel with
  | zero => intro n h; omega
  | succ fuel ih =>
    intro n h
    unfold Nat.toDigitsCore
    show decodeDigits
        (if n / 10 = 0 then [Nat.digitChar (n % 10)]
          else Nat.toDigitsCore 10 fuel (n / 10) [Nat.digitChar (n % 10)]) = n
    have hd := digitChar_toNat_sub (n % 10) (Nat.mod_lt n (by norm_num))
    by_cases hn : n / 10 = 0
    · rw [if_pos hn]
      simp only [decodeDigits, List.foldl_cons, List.foldl_nil]
      rw [hd]
      omega
    · rw [if_neg hn]
      rw [toDigitsCore_append 10 fuel (n / 10) [Nat.digitChar (n % 10)]]
      have hstep :
          decodeDigits (Nat.toDigitsCore 10 fuel (n / 10) [] ++ [Nat.digitChar (n % 10)]) =
            10 * decodeDigits (Nat.toDigitsCore 10 fuel (n / 10) []) +
              ((Nat.digitChar (n % 10)).toNat - 48) := by
        simp [decodeDigits, List.foldl_append]
      have hfl : n / 10 < fuel := by omega
      rw [hstep, ih (n / 10) hfl, hd]
      omega

/-- The decimal string representation of a natural number determines it:
`Nat.repr` is injective. -/
theorem repr_injective : Function.Injective Nat.repr := by
  intro m n h
  have hd : Nat.toDigits 10 m = Nat.toDigits 10 n := congrArg String.data h
  have hm : decodeDigits (Nat.toDigitsCore 10 (m + 1) m []) = m :=
    decodeDigits_toDigitsCore (m + 1) m (Nat.lt_succ_self m)
  have hn : decodeDigits (Nat.toDigitsCore 10 (n + 1) n []) = n :=
    decodeDigits_toDigitsCore (n + 1) n (Nat.lt_succ_self n)
  rw [show Nat.toDigits 10 m = Nat.toDigitsCore 10 (m + 1) m [] from rfl,
    show Nat.toDigits 10 n = Nat.toDigitsCore 10 (n + 1) n [] from rfl] at hd
  rw [← hm, ← hn, hd]

/-- `toString` on a natural number is `Nat.repr`. -/
theorem toString_nat (n : Nat) : toString n = Nat.repr n := rfl

/-- The seeded store satisfies the id-indexing invariant. -/
theorem booksIndexed_data : booksIndexed data := by
  unfold booksIndexed
  decide

/-- `addBook` preserves the id-indexing invariant: the new book sits at
index `books.length` and carries id `Nat.repr (101 + books.length)`. -/
theorem booksIndexed_addBook (s : Store) (args : AddBookArgs) (h : booksIndexed s) :
    booksIndexed (Resolvers.Mutation.addBook s args).1 := by
  unfold booksIndexed at h ⊢
  show (s.books ++ [(Resolvers.Mutation.addBook s args).2]).map (fun b => b.id) =
    (List.range (s.books ++ [(Resolvers.Mutation.addBook s args).2]).length).map
      (fun i => Nat.repr (101 + i))
  rw [List.map_append, h, List.length_append]
  simp only [List.length_singleton, List.range_succ, List.map_append, List.map_cons,
    List.map_nil]
  show List.map (fun i => Nat.repr (101 + i)) (List.range s.books.length) ++
      [toString (s.books.length + 101)] =
    List.map (fun i => Nat.repr (101 + i)) (List.range s.books.length) ++
      [Nat.repr (101 + s.books.length)]
  rw [toString_nat, Nat.add_comm s.books.length 101]

/-- The id-indexing invariant holds after any sequence of `addBook` calls. -/
theorem booksIndexed_runAddBooks (argsList : List AddBookArgs) :
    ∀ s, booksIndexed s → booksIndexed (runAddBooks s argsList).1 := by
  induction argsList with
  | nil => intro s h; exact h
  | cons args rest ih =>
    intro s h
    exact ih (Resolvers.Mutation.addBook s args).1 (booksIndexed_addBook s args h)

/-- Under the id-indexing invariant the book ids are pairwise distinct. -/
theorem booksIndexed_nodup (s : Store) (h : booksIndexed s) :
    (s.books.map (fun b => b.id)).Nodup := by
  unfold booksIndexed at h
  rw [h]
  refine List.Nodup.map ?_ (List.nodup_range _)
  intro i j hij
  have := repr_injective hij
  omega

/-- C10: starting from the seeded store, after any sequence of `addBook`
calls all book identifiers in the store are pairwise distinct. -/
theorem C10_book_ids_pairwise_distinct (argsList : List AddBookArgs) :
    ((runAddBooks data argsList).1.books.map (fun b => b.id)).Nodup :=
  booksIndexed_nodup (runAddBooks data argsList).1
    (booksIndexed_runAddBooks argsList data booksIndexed_data)
